import Mathlib

/-!
Verification of the playtest-tracker core (`src/app.py`).

The Python functions `canonical_list`, `decode_json_list`, `density_label`,
`combo_id`, `generate_recommended_combos`, `compute_coverage` and the
per-record enrichment of `compute_observed_combos` are shallowly embedded
below.  Python strings are modelled as Lean `String` (a list of characters);
`str.strip` / `str.lower` / `str.join` / decimal formatting of `int` are
modelled by explicit character-list functions so that every definition is
executable by the kernel.  JSON cell values are modelled by the inductive
`PyVal`; `json.loads` (which may raise) is a parameter of type
`String → Option PyVal`.
-/

/-- Model of a Python/JSON value as stored in a sheet cell or produced by
`json.loads`.  Floats are not needed by any property considered here. -/
inductive PyVal where
  | null : PyVal
  | bool : Bool → PyVal
  | int : Int → PyVal
  | str : String → PyVal
  | list : List PyVal → PyVal

/-- Little-endian decimal digits, fuel-based so that it reduces in the kernel. -/
def natDigitsRevGo : Nat → Nat → List Nat
  | 0, _ => []
  | fuel + 1, n => if n = 0 then [] else n % 10 :: natDigitsRevGo fuel (n / 10)

def natDigitsRev (n : Nat) : List Nat := natDigitsRevGo n n

/-- Decimal representation of a natural number, as Python's `str` produces it. -/
def natStr (n : Nat) : String :=
  if n = 0 then "0" else ⟨(natDigitsRev n).reverse.map Nat.digitChar⟩

/-- Python's `str(i)` for an `int`: minimal decimal digits with a leading `-`
for negative values.  This models the f-string interpolation of
`player_count` in `combo_id` and of `diff` in `density_label`. -/
def pyIntStr (i : Int) : String :=
  if i < 0 then "-" ++ natStr i.natAbs else natStr i.natAbs

/-- Characters of `l` with leading and trailing whitespace removed; the
character-level content of Python's `str.strip()`. -/
def pyStripChars (l : List Char) : List Char :=
  (((l.dropWhile Char.isWhitespace).reverse.dropWhile Char.isWhitespace)).reverse

/-- Python's `str.strip()`. -/
def pyStrip (s : String) : String := ⟨pyStripChars s.data⟩

/-- Python's `str.lower()` (ASCII case folding, which is all the suit catalog
uses). -/
def strLower (s : String) : String := ⟨s.data.map Char.toLower⟩

/-- Strict lexicographic comparison of character lists by code point:
Python's `<` on strings. -/
def lexLt : List Char → List Char → Bool
  | [], [] => false
  | [], _ :: _ => true
  | _ :: _, [] => false
  | a :: as, b :: bs =>
    if a.toNat < b.toNat then true
    else if b.toNat < a.toNat then false
    else lexLt as bs

/-- Non-strict lexicographic comparison of character lists by code point:
Python's `<=` on strings. -/
def lexLe : List Char → List Char → Bool
  | [], _ => true
  | _ :: _, [] => false
  | a :: as, b :: bs =>
    if a.toNat < b.toNat then true
    else if b.toNat < a.toNat then false
    else lexLe as bs

theorem lexLe_total : ∀ a b : List Char, lexLe a b = true ∨ lexLe b a = true
  | [], _ => .inl rfl
  | _ :: _, [] => .inr rfl
  | a :: as, b :: bs => by
    simp only [lexLe]
    rcases Nat.lt_trichotomy a.toNat b.toNat with h | h | h
    · simp [h]
    · simp only [h, Nat.lt_irrefl, if_false]
      exact lexLe_total as bs
    · simp [h, Nat.lt_asymm h]

theorem lexLe_trans : ∀ {a b c : List Char},
    lexLe a b = true → lexLe b c = true → lexLe a c = true
  | [], _, _, _, _ => rfl
  | _ :: _, [], _, h, _ => by simp [lexLe] at h
  | _ :: _, _ :: _, [], _, h' => by simp [lexLe] at h'
  | a :: as, b :: bs, c :: cs, h, h' => by
    simp only [lexLe] at h h' ⊢
    split at h
    · rename_i hab
      split at h'
      · rename_i hbc
        simp [Nat.lt_trans hab hbc]
      · split at h'
        · simp at h'
        · rename_i hcb hbc
          have hbc' : b.toNat = c.toNat := by omega
          simp [hbc' ▸ hab]
    · split at h
      · simp at h
      · rename_i hba hab
        have hab' : a.toNat = b.toNat := by omega
        split at h'
        · rename_i hbc
          simp [hab' ▸ hbc]
        · split at h'
          · simp at h'
          · rename_i hcb hbc
            have hbc' : b.toNat = c.toNat := by omega
            rw [hab', hbc']
            simp only [Nat.lt_irrefl, if_false]
            exact lexLe_trans h h'

/-- The sort key ordering used by `canonical_list`: comparison of the
lowercased strings (`key=lambda s: s.lower()`). -/
def keyLe (a b : String) : Prop := lexLe (strLower a).data (strLower b).data = true

instance : DecidableRel keyLe :=
  fun a b => inferInstanceAs (Decidable (lexLe (strLower a).data (strLower b).data = true))

instance : IsTotal String keyLe :=
  ⟨fun a b => lexLe_total (strLower a).data (strLower b).data⟩

instance : IsTrans String keyLe := ⟨fun _ _ _ h h' => lexLe_trans h h'⟩

/-- `canonical_list` (src/app.py:166-167):
`sorted([str(x).strip() for x in items if str(x).strip()], key=lambda s: s.lower())`.
A stable sort of the trimmed, non-blank entries by case-insensitive key.
(`insertionSort` with a total `≤`-like relation is stable, like Python's
`sorted`.) -/
def canonical_list (items : List String) : List String :=
  List.insertionSort keyLe ((items.map pyStrip).filter (fun s => s != ""))

mutual
/-- Python `repr` of a modelled value (quote escaping inside strings is not
modelled; no property here evaluates it on strings containing quotes). -/
def pyRepr : PyVal → String
  | .null => "None"
  | .bool true => "True"
  | .bool false => "False"
  | .int n => pyIntStr n
  | .str s => "'" ++ s ++ "'"
  | .list l => "[" ++ pyReprList l ++ "]"

def pyReprList : List PyVal → String
  | [] => ""
  | [x] => pyRepr x
  | x :: y :: xs => pyRepr x ++ ", " ++ pyReprList (y :: xs)
end

/-- Python `str(x)` of a modelled value. -/
def pyStr : PyVal → String
  | .str s => s
  | .null => "None"
  | .bool true => "True"
  | .bool false => "False"
  | .int n => pyIntStr n
  | .list l => "[" ++ pyReprList l ++ "]"

/-- `decode_json_list` (src/app.py:170-179), with `json.loads` abstracted as
`parse` (`none` models a raised exception, as caught by the `except`). -/
def decode_json_list (parse : String → Option PyVal) : PyVal → List PyVal
  | .list l => l
  | .str s =>
    if pyStrip s = "" then []
    else
      match parse s with
      | some (.list l) => l
      | _ => []
  | _ => []

/-- The composite `decode_json_list` then `canonical_list` applied to a cell,
with the inner `str(x)` conversion made explicit. -/
def canonical_list_py (items : List PyVal) : List String :=
  canonical_list (items.map pyStr)

/-- `"|".join(l)` for the canonicalized suit names. -/
def strJoin : List String → String
  | [] => ""
  | [x] => x
  | x :: y :: xs => x ++ "|" ++ strJoin (y :: xs)

/-- `combo_id` (src/app.py:197-199):
`f"{player_count}P::{'|'.join(canonical_list(suits_used))}"`. -/
def combo_id (player_count : Int) (suits_used : List String) : String :=
  pyIntStr player_count ++ "P::" ++ strJoin (canonical_list suits_used)

/-- `SUITS` (src/app.py:21-36). -/
def SUITS : List String :=
  ["Authority", "Tools", "Goods", "Crew", "Access", "Spotlight", "Blackout",
   "Squeeze", "Clean-Up", "Leverage", "Aftermath", "Fog", "Middlemen", "Fence"]

/-- `RECOMMENDED_SUITS` (src/app.py:40), an insertion-ordered dict
`{2: 3, 3: 4, 4: 6, 5: 6}` modelled as an association list. -/
def RECOMMENDED_SUITS : List (Int × Int) := [(2, 3), (3, 4), (4, 6), (5, 6)]

/-- `density_label` (src/app.py:185-194).  `RECOMMENDED_SUITS.get(pc, None)`
is `List.lookup`; the f-strings `f"Over (+{diff})"` / `f"Under ({diff})"`
carry the signed difference. -/
def density_label (player_count : Int) (suit_count : Int) : String :=
  match RECOMMENDED_SUITS.lookup player_count with
  | none => "Unknown"
  | some rec =>
    let diff := suit_count - rec
    if diff = 0 then "Recommended"
    else if diff > 0 then "Over (+" ++ pyIntStr diff ++ ")"
    else "Under (" ++ pyIntStr diff ++ ")"

/-- `non_authority` (src/app.py:203): `[s for s in SUITS if s != "Authority"]`. -/
def non_authority : List String := SUITS.filter (fun s => s != "Authority")

/-- One row of the `generate_recommended_combos` dataframe. -/
structure ComboRow where
  combo_id : String
  player_count : Int
  suits_used : List String
  recommended_suit_count : Int
  deriving DecidableEq

/-- The block of rows produced for one `(pc, k)` entry of `RECOMMENDED_SUITS`:
`itertools.combinations(non_authority, k)` enumerates the size-`k` subsets of
`non_authority` (each in catalog order), modelled by `List.sublistsLen`. -/
def combosFor (pc : Int) (k : Int) : List ComboRow :=
  (List.sublistsLen k.toNat non_authority).map fun suit_set =>
    let suits_used := canonical_list suit_set
    { combo_id := combo_id pc suits_used
      player_count := pc
      suits_used := suits_used
      recommended_suit_count := k }

/-- `generate_recommended_combos` (src/app.py:202-216): the loop over
`RECOMMENDED_SUITS.items()` in insertion order. -/
def generate_recommended_combos : List ComboRow :=
  RECOMMENDED_SUITS.flatMap fun e => combosFor e.1 e.2

/-- One play record as seen by the coverage/observed computations after
`read_plays_df`: `player_count` is the `pd.to_numeric(..., errors="coerce")`
column (`none` models `NaN` for a missing or non-numeric cell, src/app.py:149)
and `suits_used_json` is the raw stored cell.  The remaining sheet columns
(`modules_on_json`, `first_play`, players, scores, winner, notes) are not
consumed by these computations and are omitted. -/
structure PlayRow where
  timestamp_utc : String
  player_count : Option Int
  suits_used_json : PyVal

/-- One row of the `compute_coverage` output dataframe. -/
structure CoverageRow where
  combo_id : String
  player_count : Int
  suits_used : List String
  recommended_suit_count : Int
  played_count : Nat
  last_played_utc : String
  deriving DecidableEq

/-- The `combo_id` column computed for a play record inside `compute_coverage`
(src/app.py:227-236): canonicalize the decoded suit list, drop `"Authority"`,
and build the id — or `None` when `player_count` is `NaN`. -/
def playComboId (parse : String → Option PyVal) (r : PlayRow) : Option String :=
  r.player_count.map fun n =>
    combo_id n
      (((canonical_list_py (decode_json_list parse r.suits_used_json))).filter
        (fun s => s != "Authority"))

/-- `max` of a list of strings with `""` for the empty list: the value of the
`last_played_utc` column after `groupby(...).max()` and `fillna("")`
(string comparison in pandas is Python's lexicographic order, and `""` is its
minimum, so a single fold covers both cases). -/
def strMax (l : List String) : String :=
  l.foldl (fun a b => if lexLt a.data b.data then b else a) ""

/-- The coverage row built for one recommended combo: `played_count` is the
size of the `groupby("combo_id")` group of matching records (group keys are
unique, so the left merge keeps exactly one row per recommended row), and
`last_played_utc` the maximal matching timestamp. -/
def coverageRow (parse : String → Option PyVal) (plays : List PlayRow)
    (c : ComboRow) : CoverageRow :=
  let ms := plays.filter fun r => playComboId parse r == some c.combo_id
  { combo_id := c.combo_id
    player_count := c.player_count
    suits_used := c.suits_used
    recommended_suit_count := c.recommended_suit_count
    played_count := ms.length
    last_played_utc := strMax (ms.map (·.timestamp_utc)) }

/-- `compute_coverage` (src/app.py:219-244).  The `plays_df.empty` early
return is the first branch; otherwise each recommended row is annotated with
its group's count and latest timestamp (records whose `combo_id` is `None` —
invalid `player_count` — fall in no group, as pandas `groupby` drops null
keys). -/
def compute_coverage (parse : String → Option PyVal)
    (recommended : List ComboRow) (plays : List PlayRow) : List CoverageRow :=
  match plays with
  | [] =>
    recommended.map fun c =>
      { combo_id := c.combo_id
        player_count := c.player_count
        suits_used := c.suits_used
        recommended_suit_count := c.recommended_suit_count
        played_count := 0
        last_played_utc := "" }
  | _ :: _ => recommended.map (coverageRow parse plays)

/-- The per-record columns computed by `compute_observed_combos`
(src/app.py:262-275) before grouping. -/
structure ObservedFields where
  suits_used : List String
  suit_count : Nat
  has_authority : Bool
  density : String
  combo_id : Option String
  deriving DecidableEq

/-- The enrichment step of `compute_observed_combos` (src/app.py:262-275):
`suits_used` is the full canonical list (no wildcard stripping),
`suit_count` its length, and `density` is classified from that count.
The later `groupby`/sort (src/app.py:277-289) aggregates these columns
(`first` within each group) and is not needed for the properties below. -/
def observed_fields (parse : String → Option PyVal) (r : PlayRow) :
    ObservedFields :=
  let su := canonical_list_py (decode_json_list parse r.suits_used_json)
  { suits_used := su
    suit_count := su.length
    has_authority := su.contains "Authority"
    density :=
      match r.player_count with
      | some n => density_label n (su.length : Int)
      | none => "Unknown"
    combo_id := r.player_count.map fun n => combo_id n su }

/-- Equality of two name collections as sets (order- and
duplicate-insensitive), the comparison the spec uses for combination
identity. -/
def elemSetEq (a b : List String) : Bool :=
  a.all (fun x => b.contains x) && b.all (fun x => a.contains x)

/-- A concrete `json.loads` model that always fails; used to instantiate
parse-generic statements on concrete inputs. -/
def noParse : String → Option PyVal := fun _ => none

/-- A concrete recommended combo row. -/
def sampleCombo : ComboRow :=
  { combo_id := combo_id 2 ["Fog"], player_count := 2, suits_used := ["Fog"],
    recommended_suit_count := 3 }

/-- A concrete record whose `player_count` failed numeric coercion. -/
def invalidPcRec : PlayRow :=
  { timestamp_utc := "2024-01-01T00:00:00+00:00", player_count := none,
    suits_used_json := PyVal.list [PyVal.str "Fog"] }

/-- A concrete 2-player record whose stored suit list includes the wildcard
`"Authority"` plus two other names. -/
def authRec : PlayRow :=
  { timestamp_utc := "2024-01-02T00:00:00+00:00", player_count := some 2,
    suits_used_json := PyVal.list [PyVal.str "Authority", PyVal.str "X", PyVal.str "Y"] }

/-! ### Properties of the `str.strip` model -/

theorem dropWhile_idem (p : α → Bool) (l : List α) :
    (l.dropWhile p).dropWhile p = l.dropWhile p := by
  induction l with
  | nil => rfl
  | cons a l ih =>
    by_cases h : p a
    · simpa [List.dropWhile_cons, h] using ih
    · simp [List.dropWhile_cons, h]

theorem mem_dropWhile {p : α → Bool} {l : List α} {a : α}
    (h : a ∈ l.dropWhile p) : a ∈ l := by
  have := List.takeWhile_append_dropWhile (p := p) (l := l)
  rw [← this]
  exact List.mem_append_right _ h

theorem length_dropWhile_le (p : α → Bool) (l : List α) :
    (l.dropWhile p).length ≤ l.length := by
  induction l with
  | nil => exact Nat.le_refl 0
  | cons a l ih =>
    by_cases h : p a
    · rw [List.dropWhile_cons_of_pos h]
      exact Nat.le_succ_of_le ih
    · rw [List.dropWhile_cons_of_neg h]

theorem dropWhile_eq_self_of_shape {p : α → Bool} {m t s : List α}
    (hm : m.dropWhile p = m) (hdecomp : m = t ++ s) : t.dropWhile p = t := by
  cases t with
  | nil => rfl
  | cons a t' =>
    refine List.dropWhile_cons_of_neg ?_
    intro hpa
    have h1 : m.dropWhile p = (t' ++ s).dropWhile p := by
      rw [hdecomp, List.cons_append, List.dropWhile_cons_of_pos hpa]
    rw [hm] at h1
    have hlen := congrArg List.length h1
    have hle := length_dropWhile_le p (t' ++ s)
    rw [hdecomp] at hlen
    rw [List.cons_append, List.length_cons, List.length_append] at hlen
    rw [List.length_append] at hle
    omega

theorem pyStripChars_idem (l : List Char) :
    pyStripChars (pyStripChars l) = pyStripChars l := by
  have hmself : (l.dropWhile Char.isWhitespace).dropWhile Char.isWhitespace
      = l.dropWhile Char.isWhitespace := dropWhile_idem _ l
  have hdecomp : l.dropWhile Char.isWhitespace =
      ((l.dropWhile Char.isWhitespace).reverse.dropWhile Char.isWhitespace).reverse ++
        ((l.dropWhile Char.isWhitespace).reverse.takeWhile Char.isWhitespace).reverse := by
    have h0 := List.takeWhile_append_dropWhile (p := Char.isWhitespace)
      (l := (l.dropWhile Char.isWhitespace).reverse)
    have h1 := congrArg List.reverse h0
    rw [List.reverse_append, List.reverse_reverse] at h1
    exact h1.symm
  have hfront :
      (((l.dropWhile Char.isWhitespace).reverse.dropWhile Char.isWhitespace).reverse).dropWhile
          Char.isWhitespace
        = ((l.dropWhile Char.isWhitespace).reverse.dropWhile Char.isWhitespace).reverse :=
    dropWhile_eq_self_of_shape hmself hdecomp
  show ((((pyStripChars l).dropWhile Char.isWhitespace).reverse.dropWhile
      Char.isWhitespace)).reverse = pyStripChars l
  have hP : pyStripChars l
      = ((l.dropWhile Char.isWhitespace).reverse.dropWhile Char.isWhitespace).reverse := rfl
  rw [hP, hfront, List.reverse_reverse, dropWhile_idem]

theorem pyStrip_idem (s : String) : pyStrip (pyStrip s) = pyStrip s :=
  congrArg String.mk (pyStripChars_idem s.data)

theorem mem_pyStripChars {l : List Char} {a : Char}
    (h : a ∈ pyStripChars l) : a ∈ l := by
  unfold pyStripChars at h
  rw [List.mem_reverse] at h
  have h1 := mem_dropWhile h
  rw [List.mem_reverse] at h1
  exact mem_dropWhile h1

theorem mem_pyStrip_data {s : String} {a : Char}
    (h : a ∈ (pyStrip s).data) : a ∈ s.data :=
  mem_pyStripChars h

/-! ### Properties of `canonical_list` -/

theorem canonical_list_perm (l : List String) :
    List.Perm (canonical_list l) ((l.map pyStrip).filter (fun s => s != "")) :=
  List.perm_insertionSort _ _

theorem mem_canonical_list {l : List String} {x : String}
    (h : x ∈ canonical_list l) : pyStrip x = x ∧ x ≠ "" := by
  have hx : x ∈ (l.map pyStrip).filter (fun s => s != "") :=
    (canonical_list_perm l).mem_iff.mp h
  rw [List.mem_filter] at hx
  obtain ⟨hmem, hne⟩ := hx
  rw [List.mem_map] at hmem
  obtain ⟨y, _, hy⟩ := hmem
  refine ⟨?_, by simpa using hne⟩
  rw [← hy, pyStrip_idem]

theorem sorted_canonical_list (l : List String) :
    (canonical_list l).Sorted keyLe :=
  List.sorted_insertionSort keyLe _

theorem canonical_list_eq_self {c : List String}
    (hclean : ∀ x ∈ c, pyStrip x = x ∧ x ≠ "") (hs : c.Sorted keyLe) :
    canonical_list c = c := by
  unfold canonical_list
  have hmap : c.map pyStrip = c :=
    (List.map_congr_left (fun a ha => (hclean a ha).1)).trans (by simp)
  rw [hmap]
  have hfil : c.filter (fun s => s != "") = c :=
    List.filter_eq_self.mpr (fun a ha => by simpa using (hclean a ha).2)
  rw [hfil]
  exact hs.insertionSort_eq

theorem canonical_list_perm_self {s : List String}
    (hclean : ∀ x ∈ s, pyStrip x = x ∧ x ≠ "") :
    List.Perm (canonical_list s) s := by
  unfold canonical_list
  have hmap : s.map pyStrip = s :=
    (List.map_congr_left (fun a ha => (hclean a ha).1)).trans (by simp)
  rw [hmap]
  have hfil : s.filter (fun x => x != "") = s :=
    List.filter_eq_self.mpr (fun a ha => by simpa using (hclean a ha).2)
  rw [hfil]
  exact List.perm_insertionSort _ _

/-! ### Properties of the decimal formatting model -/

theorem natDigitsRevGo_eq_digits :
    ∀ (fuel n : Nat), n ≤ fuel → natDigitsRevGo fuel n = Nat.digits 10 n
  | 0, n, h => by
    have hn : n = 0 := Nat.le_zero.mp h
    subst hn
    simp [natDigitsRevGo]
  | fuel + 1, n, h => by
    by_cases hn : n = 0
    · subst hn; simp [natDigitsRevGo]
    · rw [natDigitsRevGo, if_neg hn,
        Nat.digits_def' (by norm_num : (1 : Nat) < 10) (Nat.pos_of_ne_zero hn)]
      have hdiv : n / 10 ≤ fuel := by
        have := Nat.div_lt_self (Nat.pos_of_ne_zero hn) (by norm_num : 1 < 10)
        omega
      rw [natDigitsRevGo_eq_digits fuel (n / 10) hdiv]

theorem natDigitsRev_eq_digits (n : Nat) : natDigitsRev n = Nat.digits 10 n :=
  natDigitsRevGo_eq_digits n n (Nat.le_refl n)

theorem digitChar_isDigit {d : Nat} (h : d < 10) :
    (Nat.digitChar d).isDigit = true := by
  interval_cases d <;> decide

theorem digitChar_inj {a b : Nat} (ha : a < 10) (hb : b < 10)
    (h : Nat.digitChar a = Nat.digitChar b) : a = b := by
  interval_cases a <;> interval_cases b <;> simp_all <;> exact absurd h (by decide)

theorem map_digitChar_inj : ∀ {l₁ l₂ : List Nat},
    (∀ d ∈ l₁, d < 10) → (∀ d ∈ l₂, d < 10) →
    l₁.map Nat.digitChar = l₂.map Nat.digitChar → l₁ = l₂
  | [], [], _, _, _ => rfl
  | [], _ :: _, _, _, h => by simp at h
  | _ :: _, [], _, _, h => by simp at h
  | a :: l₁, b :: l₂, h₁, h₂, h => by
    rw [List.map_cons, List.map_cons] at h
    obtain ⟨hab, htail⟩ := List.cons.injEq _ _ _ _ ▸ h
    have ha := h₁ a (List.mem_cons_self a l₁)
    have hb := h₂ b (List.mem_cons_self b l₂)
    rw [digitChar_inj ha hb hab,
      map_digitChar_inj (fun d hd => h₁ d (List.mem_cons_of_mem _ hd))
        (fun d hd => h₂ d (List.mem_cons_of_mem _ hd)) htail]

theorem natStr_isDigit {n : Nat} {c : Char}
    (h : c ∈ (natStr n).data) : c.isDigit = true := by
  unfold natStr at h
  by_cases hn : n = 0
  · rw [if_pos hn, show ("0" : String).data = ['0'] from rfl,
      List.mem_singleton] at h
    subst h; decide
  · rw [if_neg hn] at h
    simp only [natDigitsRev_eq_digits] at h
    rw [List.mem_map] at h
    obtain ⟨d, hd, hdc⟩ := h
    rw [List.mem_reverse] at hd
    rw [← hdc]
    exact digitChar_isDigit (Nat.digits_lt_base (by norm_num) hd)

theorem natStr_ne_empty (n : Nat) : natStr n ≠ "" := by
  unfold natStr
  by_cases hn : n = 0
  · rw [if_pos hn]; decide
  · rw [if_neg hn]
    intro hcontra
    have hdata := congrArg String.data hcontra
    simp only [natDigitsRev_eq_digits] at hdata
    have h1 : ((Nat.digits 10 n).reverse.map Nat.digitChar) = [] := hdata
    rw [List.map_eq_nil_iff] at h1
    have h2 : Nat.digits 10 n = [] := by simpa using h1
    exact hn (Nat.digits_eq_nil_iff_eq_zero.mp h2)

theorem natStr_eq_zero_str {n : Nat}
    (h : (Nat.digits 10 n).reverse.map Nat.digitChar = ['0']) : n = 0 := by
  rw [List.map_reverse] at h
  have hrev := congrArg List.reverse h
  rw [List.reverse_reverse] at hrev
  have hmap : (Nat.digits 10 n).map Nat.digitChar = ['0'] := by simpa using hrev
  have hdig : Nat.digits 10 n = [0] :=
    map_digitChar_inj (fun d hd => Nat.digits_lt_base (by norm_num) hd)
      (by intro d hd; rw [List.mem_singleton] at hd; omega) (by simpa using hmap)
  have hn : n = Nat.ofDigits 10 [0] := by
    conv_lhs => rw [← Nat.ofDigits_digits 10 n, hdig]
  simpa [Nat.ofDigits] using hn

theorem natStr_inj {a b : Nat} (h : natStr a = natStr b) : a = b := by
  unfold natStr at h
  by_cases ha : a = 0 <;> by_cases hb : b = 0
  · omega
  · rw [if_pos ha, if_neg hb] at h
    have hdata := congrArg String.data h
    simp only [natDigitsRev_eq_digits] at hdata
    have hmap : (Nat.digits 10 b).reverse.map Nat.digitChar = ['0'] := hdata.symm
    exact absurd (natStr_eq_zero_str hmap) hb
  · rw [if_neg ha, if_pos hb] at h
    have hdata := congrArg String.data h
    simp only [natDigitsRev_eq_digits] at hdata
    have hmap : (Nat.digits 10 a).reverse.map Nat.digitChar = ['0'] := hdata
    exact absurd (natStr_eq_zero_str hmap) ha
  · rw [if_neg ha, if_neg hb] at h
    have hdata := congrArg String.data h
    simp only [natDigitsRev_eq_digits] at hdata
    rw [List.map_reverse, List.map_reverse] at hdata
    have hmap := congrArg List.reverse hdata
    rw [List.reverse_reverse, List.reverse_reverse] at hmap
    have hdig : Nat.digits 10 a = Nat.digits 10 b :=
      map_digitChar_inj (fun d hd => Nat.digits_lt_base (by norm_num) hd)
        (fun d hd => Nat.digits_lt_base (by norm_num) hd) hmap
    exact Nat.digits.injective 10 hdig

theorem pyIntStr_chars {i : Int} {c : Char} (h : c ∈ (pyIntStr i).data) :
    c = '-' ∨ c.isDigit = true := by
  unfold pyIntStr at h
  by_cases hi : i < 0
  · rw [if_pos hi, String.data_append] at h
    rcases List.mem_append.mp h with h' | h'
    · left
      rw [show ("-" : String).data = ['-'] from rfl, List.mem_singleton] at h'
      exact h'
    · right; exact natStr_isDigit h'
  · rw [if_neg hi] at h
    right; exact natStr_isDigit h

theorem pyIntStr_no_P {i : Int} : 'P' ∉ (pyIntStr i).data := by
  intro h
  rcases pyIntStr_chars h with h' | h'
  · cases h'
  · exact absurd h' (by decide)

theorem pyIntStr_no_pipe {i : Int} : '|' ∉ (pyIntStr i).data := by
  intro h
  rcases pyIntStr_chars h with h' | h'
  · cases h'
  · exact absurd h' (by decide)

theorem pyIntStr_inj {i j : Int} (h : pyIntStr i = pyIntStr j) : i = j := by
  unfold pyIntStr at h
  by_cases hi : i < 0 <;> by_cases hj : j < 0
  · rw [if_pos hi, if_pos hj] at h
    have hdata := congrArg String.data h
    rw [String.data_append, String.data_append,
      show ("-" : String).data = ['-'] from rfl] at hdata
    have hnat : (natStr i.natAbs).data = (natStr j.natAbs).data := by
      simpa using hdata
    have habs : i.natAbs = j.natAbs := natStr_inj (String.ext hnat)
    omega
  · rw [if_pos hi, if_neg hj] at h
    have hdata := congrArg String.data h
    rw [String.data_append, show ("-" : String).data = ['-'] from rfl] at hdata
    have hdig : ('-' : Char).isDigit = true := by
      apply natStr_isDigit (n := j.natAbs)
      rw [← hdata]
      exact List.mem_cons_self _ _
    exact absurd hdig (by decide)
  · rw [if_neg hi, if_pos hj] at h
    have hdata := congrArg String.data h
    rw [String.data_append, show ("-" : String).data = ['-'] from rfl] at hdata
    have hdig : ('-' : Char).isDigit = true := by
      apply natStr_isDigit (n := i.natAbs)
      rw [hdata]
      exact List.mem_cons_self _ _
    exact absurd hdig (by decide)
  · rw [if_neg hi, if_neg hj] at h
    have habs : i.natAbs = j.natAbs := natStr_inj h
    omega

/-! ### Splitting strings at a separator character -/

theorem append_sep_inj {c : Char} {a₁ a₂ r₁ r₂ : List Char}
    (h₁ : c ∉ a₁) (h₂ : c ∉ a₂)
    (h : a₁ ++ c :: r₁ = a₂ ++ c :: r₂) : a₁ = a₂ ∧ r₁ = r₂ := by
  have hpos₁ : ∀ x ∈ a₁, (x != c) = true := by
    intro x hx
    have hne : x ≠ c := fun hxc => h₁ (hxc ▸ hx)
    simpa using hne
  have hpos₂ : ∀ x ∈ a₂, (x != c) = true := by
    intro x hx
    have hne : x ≠ c := fun hxc => h₂ (hxc ▸ hx)
    simpa using hne
  have hneg : ¬ ((c != c) = true) := by simp
  have ht := congrArg (List.takeWhile (fun x => x != c)) h
  rw [List.takeWhile_append_of_pos hpos₁, List.takeWhile_append_of_pos hpos₂,
    @List.takeWhile_cons_of_neg _ (fun x => x != c) c r₁ hneg,
    @List.takeWhile_cons_of_neg _ (fun x => x != c) c r₂ hneg,
    List.append_nil, List.append_nil] at ht
  refine ⟨ht, ?_⟩
  rw [ht] at h
  have := List.append_cancel_left h
  exact (List.cons.injEq _ _ _ _ ▸ this).2

theorem string_ne_empty_iff_data {s : String} : s ≠ "" ↔ s.data ≠ [] := by
  constructor
  · intro h hd
    exact h (String.ext hd)
  · intro h hs
    exact h (congrArg String.data hs)

theorem strJoin_data_cons (x y : String) (ys : List String) :
    (strJoin (x :: y :: ys)).data = x.data ++ '|' :: (strJoin (y :: ys)).data := by
  show (x ++ "|" ++ strJoin (y :: ys)).data = _
  rw [String.data_append, String.data_append,
    show ("|" : String).data = ['|'] from rfl]
  simp

theorem strJoin_inj : ∀ {xs ys : List String},
    (∀ x ∈ xs, x ≠ "" ∧ '|' ∉ x.data) → (∀ y ∈ ys, y ≠ "" ∧ '|' ∉ y.data) →
    strJoin xs = strJoin ys → xs = ys
  | [], [], _, _, _ => rfl
  | [], [y], _, hy, h => by
    have hne := (hy y (List.mem_cons_self y [])).1
    exact absurd h.symm hne
  | [], y :: z :: ys, _, hy, h => by
    have hd := congrArg String.data h
    rw [strJoin_data_cons,
      show (strJoin ([] : List String)).data = [] from rfl] at hd
    have := congrArg List.length hd
    simp at this
    omega
  | [x], [], hx, _, h => by
    have hne := (hx x (List.mem_cons_self x [])).1
    exact absurd h hne
  | x :: y :: xs, [], hx, _, h => by
    have hd := congrArg String.data h
    rw [strJoin_data_cons,
      show (strJoin ([] : List String)).data = [] from rfl] at hd
    have := congrArg List.length hd
    simp at this
  | [x], [y], _, _, h => by
    show x :: ([] : List String) = y :: []
    rw [show strJoin [x] = x from rfl, show strJoin [y] = y from rfl] at h
    rw [h]
  | [x], y :: z :: ys, hx, hy, h => by
    have hpipe := (hx x (List.mem_cons_self x [])).2
    have hd := congrArg String.data h
    rw [show strJoin [x] = x from rfl, strJoin_data_cons] at hd
    have hmem : '|' ∈ x.data := by
      rw [hd]
      exact List.mem_append_right _ (List.mem_cons_self _ _)
    exact absurd hmem hpipe
  | x :: y :: xs, [z], hx, hz, h => by
    have hpipe := (hz z (List.mem_cons_self z [])).2
    have hd := congrArg String.data h
    rw [show strJoin [z] = z from rfl, strJoin_data_cons] at hd
    have hmem : '|' ∈ z.data := by
      rw [← hd]
      exact List.mem_append_right _ (List.mem_cons_self _ _)
    exact absurd hmem hpipe
  | x :: x' :: xs, y :: y' :: ys, hx, hy, h => by
    have hd := congrArg String.data h
    rw [strJoin_data_cons, strJoin_data_cons] at hd
    obtain ⟨hhead, htail⟩ :=
      append_sep_inj (hx x (List.mem_cons_self x _)).2 (hy y (List.mem_cons_self y _)).2 hd
    have hxy : x = y := String.ext hhead
    have hjoin : strJoin (x' :: xs) = strJoin (y' :: ys) := String.ext htail
    have hrest : x' :: xs = y' :: ys :=
      strJoin_inj (fun a ha => hx a (List.mem_cons_of_mem _ ha))
        (fun a ha => hy a (List.mem_cons_of_mem _ ha)) hjoin
    rw [hxy, hrest]

/-! ### Characterization of `combo_id` equality -/

theorem mem_canonical_list_exists {l : List String} {x : String}
    (h : x ∈ canonical_list l) : ∃ y ∈ l, x = pyStrip y := by
  have hx : x ∈ (l.map pyStrip).filter (fun s => s != "") :=
    (canonical_list_perm l).mem_iff.mp h
  rw [List.mem_filter] at hx
  obtain ⟨hmem, _⟩ := hx
  rw [List.mem_map] at hmem
  obtain ⟨y, hy, hxy⟩ := hmem
  exact ⟨y, hy, hxy.symm⟩

theorem combo_id_data (n : Int) (E : List String) :
    (combo_id n E).data
      = (pyIntStr n).data ++ 'P' :: ':' :: ':' :: (strJoin (canonical_list E)).data := by
  show ((pyIntStr n ++ "P::") ++ strJoin (canonical_list E)).data = _
  rw [String.data_append, String.data_append,
    show ("P::" : String).data = ['P', ':', ':'] from rfl]
  simp

theorem combo_id_eq_iff {n m : Int} {E₁ E₂ : List String}
    (h₁ : ∀ x ∈ E₁, '|' ∉ x.data) (h₂ : ∀ x ∈ E₂, '|' ∉ x.data) :
    combo_id n E₁ = combo_id m E₂ ↔
      n = m ∧ canonical_list E₁ = canonical_list E₂ := by
  constructor
  · intro h
    have hd := congrArg String.data h
    rw [combo_id_data, combo_id_data] at hd
    obtain ⟨hn, hr⟩ := append_sep_inj pyIntStr_no_P pyIntStr_no_P hd
    refine ⟨pyIntStr_inj (String.ext hn), ?_⟩
    have hjoin : strJoin (canonical_list E₁) = strJoin (canonical_list E₂) := by
      apply String.ext
      have h1 := (List.cons.injEq _ _ _ _ ▸ hr).2
      exact (List.cons.injEq _ _ _ _ ▸ h1).2
    refine strJoin_inj ?_ ?_ hjoin
    · intro x hx
      refine ⟨(mem_canonical_list hx).2, ?_⟩
      obtain ⟨y, hy, hxy⟩ := mem_canonical_list_exists hx
      intro hp
      exact h₁ y hy (mem_pyStrip_data (hxy ▸ hp))
    · intro x hx
      refine ⟨(mem_canonical_list hx).2, ?_⟩
      obtain ⟨y, hy, hxy⟩ := mem_canonical_list_exists hx
      intro hp
      exact h₂ y hy (mem_pyStrip_data (hxy ▸ hp))
  · intro ⟨hn, hc⟩
    unfold combo_id
    rw [hn, hc]

/-! ### Coverage computation lemmas -/

theorem compute_coverage_eq (parse : String → Option PyVal)
    (recommended : List ComboRow) (plays : List PlayRow) :
    compute_coverage parse recommended plays
      = recommended.map (coverageRow parse plays) := by
  cases plays with
  | nil => rfl
  | cons a l => rfl

theorem coverageRow_skips_invalid (parse : String → Option PyVal)
    (pre post : List PlayRow) {r : PlayRow} (hr : r.player_count = none)
    (c : ComboRow) :
    coverageRow parse (pre ++ r :: post) c = coverageRow parse (pre ++ post) c := by
  unfold coverageRow
  have hpred : (playComboId parse r == some c.combo_id) = false := by
    unfold playComboId
    rw [hr]
    rfl
  rw [List.filter_append, List.filter_append, List.filter_cons, hpred]
  simp

/-! ### Generator lemmas -/

theorem non_authority_clean : ∀ x ∈ non_authority, pyStrip x = x ∧ x ≠ "" := by
  decide

theorem non_authority_nodup : non_authority.Nodup := by decide

theorem non_authority_length : non_authority.length = 13 := rfl

theorem canonical_list_inj_on_sublists {s t : List String}
    (hs : List.Sublist s non_authority) (ht : List.Sublist t non_authority)
    (h : canonical_list s = canonical_list t) : s = t := by
  have hcs : List.Perm (canonical_list s) s :=
    canonical_list_perm_self (fun x hx => non_authority_clean x (hs.subset hx))
  have hct : List.Perm (canonical_list t) t :=
    canonical_list_perm_self (fun x hx => non_authority_clean x (ht.subset hx))
  have hperm : List.Perm s t := hcs.symm.trans (h ▸ hct)
  exact (List.Nodup.perm_iff_eq_of_sublist non_authority_nodup hs ht).mp hperm

theorem length_combosFor (pc k : Int) :
    (combosFor pc k).length = Nat.choose 13 k.toNat := by
  unfold combosFor
  rw [List.length_map, List.length_sublistsLen, non_authority_length]

theorem mem_combosFor_player_count {pc k : Int} {r : ComboRow}
    (h : r ∈ combosFor pc k) : r.player_count = pc := by
  unfold combosFor at h
  rw [List.mem_map] at h
  obtain ⟨s, _, rfl⟩ := h
  rfl

theorem filter_combosFor_eq (pc k q : Int) :
    (combosFor pc k).filter (fun r => r.player_count == q)
      = if pc = q then combosFor pc k else [] := by
  unfold combosFor
  rw [List.filter_map]
  by_cases h : pc = q
  · subst h
    rw [if_pos rfl]
    congr 1
    apply List.filter_eq_self.mpr
    intro a _
    simp [Function.comp]
  · rw [if_neg h]
    convert List.map_nil
    apply List.filter_eq_nil_iff.mpr
    intro a _
    simp [Function.comp, h]

theorem nodup_suits_combosFor (pc k : Int) :
    ((combosFor pc k).map (fun r => r.suits_used)).Nodup := by
  unfold combosFor
  rw [List.map_map]
  have hfn : ((fun r : ComboRow => r.suits_used) ∘
      (fun suit_set =>
        ({ combo_id := combo_id pc (canonical_list suit_set),
           player_count := pc,
           suits_used := canonical_list suit_set,
           recommended_suit_count := k } : ComboRow)))
      = fun suit_set => canonical_list suit_set := rfl
  refine List.Nodup.map_on ?_ (List.nodup_sublistsLen _ non_authority_nodup)
  intro s hs t ht hval
  rw [List.mem_sublistsLen] at hs ht
  exact canonical_list_inj_on_sublists hs.1 ht.1 hval

theorem generate_eq_blocks :
    generate_recommended_combos
      = combosFor 2 3 ++ (combosFor 3 4 ++ (combosFor 4 6 ++ (combosFor 5 6 ++ []))) := by
  rfl

/-! ### The claims -/

/-- C1 counterexample: `canonical_list` does not deduplicate. The spec's own
example `["B","a","A"," b "]` canonicalizes to a sequence of length 4, not 2,
and a repeated name survives with both occurrences. -/
theorem C1_counterexample :
    (canonical_list ["B", "a", "A", " b "]).length ≠ 2 ∧
    (canonical_list ["B", "a", "A", " b "]).length = 4 ∧
    (canonical_list ["Tools", "Tools"]).count "Tools" = 2 := by
  decide

/-- C1 (amended): `canonical_list` keeps every trimmed non-blank entry,
duplicates included — each non-blank name `x` occurs in the output exactly as
many times as there are input entries whose trimmed form is `x` (so the
output is multiset-, not set-, semantics), and the spec's example
`["B","a","A"," b "]` yields a sequence of length 4. -/
theorem C1_canonical_multiplicity :
    (∀ (l : List String) (x : String), x ≠ "" →
      (canonical_list l).count x = l.countP (fun y => pyStrip y == x)) ∧
    (canonical_list ["B", "a", "A", " b "]).length = 4 := by
  constructor
  · intro l x hx
    rw [(canonical_list_perm l).count_eq, List.count_filter (by simpa using hx),
      List.count_eq_countP, List.countP_map]
    rfl
  · decide

theorem C1_witness :
    (canonical_list ["Tools", "Tools"]).count "Tools"
      = ["Tools", "Tools"].countP (fun y => pyStrip y == "Tools") :=
  C1_canonical_multiplicity.1 ["Tools", "Tools"] "Tools" (by decide)

/-- C2 counterexample: `combo_id` equality is not set-equality of the inputs.
Duplicated entries are kept (equal sets, different ids), and the `"|"`
separator collides with a name containing `"|"` (different sets, equal
ids). -/
theorem C2_counterexample :
    (combo_id 2 ["Tools", "Tools"] ≠ combo_id 2 ["Tools"] ∧
      elemSetEq ["Tools", "Tools"] ["Tools"] = true) ∧
    (combo_id 2 ["a|b"] = combo_id 2 ["a", "b"] ∧
      elemSetEq ["a|b"] ["a", "b"] = false) := by
  decide

/-- C2 (amended): for element names free of the separator `'|'`, two
`combo_id` strings are equal iff the player counts are equal and the
canonicalized lists are equal as lists (order of equal-key entries and
duplicate entries both distinguish). -/
theorem C2_combo_id_eq :
    ∀ (n m : Int) (E₁ E₂ : List String),
      (∀ x ∈ E₁, '|' ∉ x.data) → (∀ x ∈ E₂, '|' ∉ x.data) →
      (combo_id n E₁ = combo_id m E₂ ↔
        n = m ∧ canonical_list E₁ = canonical_list E₂) :=
  fun _ _ _ _ h₁ h₂ => combo_id_eq_iff h₁ h₂

theorem C2_witness :
    combo_id 2 ["b", "a"] = combo_id 2 ["a", "b"] ↔
      (2 : Int) = 2 ∧ canonical_list ["b", "a"] = canonical_list ["a", "b"] :=
  C2_combo_id_eq 2 2 ["b", "a"] ["a", "b"] (by decide) (by decide)

/-- C3: `compute_coverage` is a left join from the recommended side — its
output has exactly one row per recommended combination, whatever the play
records are (including none, several per combination, or unmatched ones). -/
theorem C3_coverage_length :
    ∀ (parse : String → Option PyVal) (recommended : List ComboRow)
      (plays : List PlayRow),
      (compute_coverage parse recommended plays).length = recommended.length := by
  intro parse recommended plays
  rw [compute_coverage_eq, List.length_map]

/-- C4: over the 13 non-Authority catalog suits, the enumerator produces
exactly `C(13,3) = 286` rows for 2 players, `C(13,4) = 715` for 3 players and
`C(13,6) = 1716` for each of 4 and 5 players, with no duplicate suit
subsets inside any player count's block. -/
theorem C4_generator_counts :
    non_authority.length = 13 ∧
    (generate_recommended_combos.filter (fun r => r.player_count == 2)).length = 286 ∧
    (generate_recommended_combos.filter (fun r => r.player_count == 3)).length = 715 ∧
    (generate_recommended_combos.filter (fun r => r.player_count == 4)).length = 1716 ∧
    (generate_recommended_combos.filter (fun r => r.player_count == 5)).length = 1716 ∧
    ((generate_recommended_combos.filter (fun r => r.player_count == 2)).map
      (fun r => r.suits_used)).Nodup ∧
    ((generate_recommended_combos.filter (fun r => r.player_count == 3)).map
      (fun r => r.suits_used)).Nodup ∧
    ((generate_recommended_combos.filter (fun r => r.player_count == 4)).map
      (fun r => r.suits_used)).Nodup ∧
    ((generate_recommended_combos.filter (fun r => r.player_count == 5)).map
      (fun r => r.suits_used)).Nodup := by
  have hblock : ∀ q : Int, generate_recommended_combos.filter
      (fun r => r.player_count == q)
      = (if (2 : Int) = q then combosFor 2 3 else []) ++
        ((if (3 : Int) = q then combosFor 3 4 else []) ++
          ((if (4 : Int) = q then combosFor 4 6 else []) ++
            ((if (5 : Int) = q then combosFor 5 6 else []) ++ []))) := by
    intro q
    rw [generate_eq_blocks, List.filter_append, List.filter_append,
      List.filter_append, List.filter_append, filter_combosFor_eq,
      filter_combosFor_eq, filter_combosFor_eq, filter_combosFor_eq]
    rfl
  have h2 : generate_recommended_combos.filter (fun r => r.player_count == 2)
      = combosFor 2 3 := by rw [hblock 2]; norm_num
  have h3 : generate_recommended_combos.filter (fun r => r.player_count == 3)
      = combosFor 3 4 := by rw [hblock 3]; norm_num
  have h4 : generate_recommended_combos.filter (fun r => r.player_count == 4)
      = combosFor 4 6 := by rw [hblock 4]; norm_num
  have h5 : generate_recommended_combos.filter (fun r => r.player_count == 5)
      = combosFor 5 6 := by rw [hblock 5]; norm_num
  refine ⟨rfl, ?_, ?_, ?_, ?_, ?_, ?_, ?_, ?_⟩
  · rw [h2, length_combosFor]; rfl
  · rw [h3, length_combosFor]; rfl
  · rw [h4, length_combosFor]; rfl
  · rw [h5, length_combosFor]; rfl
  · rw [h2]; exact nodup_suits_combosFor 2 3
  · rw [h3]; exact nodup_suits_combosFor 3 4
  · rw [h4]; exact nodup_suits_combosFor 4 6
  · rw [h5]; exact nodup_suits_combosFor 5 6

/-- C5: `density_label` is total and returns `"Unknown"` for player counts
outside the recommended map, `"Recommended"` at the recommended size, and
over/under labels carrying the signed difference otherwise; with the
catalog's map, `classify(4,6)`, `classify(4,7)`, `classify(4,5)` and
`classify(6,3)` behave as claimed. -/
theorem C5_density_label :
    (∀ pc sc : Int,
      (RECOMMENDED_SUITS.lookup pc = none → density_label pc sc = "Unknown") ∧
      (∀ r : Int, RECOMMENDED_SUITS.lookup pc = some r →
        (sc = r → density_label pc sc = "Recommended") ∧
        (sc > r → density_label pc sc = "Over (+" ++ pyIntStr (sc - r) ++ ")") ∧
        (sc < r → density_label pc sc = "Under (" ++ pyIntStr (sc - r) ++ ")"))) ∧
    density_label 4 6 = "Recommended" ∧
    density_label 4 7 = "Over (+1)" ∧
    density_label 4 5 = "Under (-1)" ∧
    density_label 6 3 = "Unknown" := by
  refine ⟨?_, by decide, by decide, by decide, by decide⟩
  intro pc sc
  constructor
  · intro h
    unfold density_label
    rw [h]
  · intro r hr
    unfold density_label
    rw [hr]
    refine ⟨?_, ?_, ?_⟩
    · intro h
      simp [h]
    · intro h
      have h0 : ¬ (sc - r = 0) := by omega
      have h1 : sc - r > 0 := by omega
      simp [h0, h1]
    · intro h
      have h0 : ¬ (sc - r = 0) := by omega
      have h1 : ¬ (sc - r > 0) := by omega
      simp [h0, h1]

theorem C5_witness :
    density_label 4 7 = "Over (+" ++ pyIntStr ((7 : Int) - 6) ++ ")" :=
  ((C5_density_label.1 4 7).2 6 (by decide)).2.1 (by decide)

/-- C6: `decode_json_list` never fails: a value that is not a (string or
list), a blank string, a string `json.loads` rejects, or a string decoding
to a non-list all yield `[]`, while an actual list value or a string
decoding to a list yields that list — so one malformed stored field never
aborts a read. -/
theorem C6_decode_safe :
    ∀ (parse : String → Option PyVal) (v : PyVal),
      ((∀ l, v ≠ PyVal.list l) → (∀ s, v ≠ PyVal.str s) →
        decode_json_list parse v = []) ∧
      (∀ s, v = PyVal.str s → pyStrip s = "" → decode_json_list parse v = []) ∧
      (∀ s, v = PyVal.str s → parse s = none → decode_json_list parse v = []) ∧
      (∀ s x, v = PyVal.str s → parse s = some x → (∀ l, x ≠ PyVal.list l) →
        decode_json_list parse v = []) ∧
      (∀ l, v = PyVal.list l → decode_json_list parse v = l) ∧
      (∀ s l, v = PyVal.str s → pyStrip s ≠ "" → parse s = some (PyVal.list l) →
        decode_json_list parse v = l) := by
  intro parse v
  refine ⟨?_, ?_, ?_, ?_, ?_, ?_⟩
  · intro hl hs
    cases v with
    | list l => exact absurd rfl (hl l)
    | str s => exact absurd rfl (hs s)
    | null => rfl
    | bool b => rfl
    | int n => rfl
  · intro s hv hblank
    subst hv
    simp [decode_json_list, hblank]
  · intro s hv hparse
    subst hv
    by_cases hb : pyStrip s = ""
    · simp [decode_json_list, hb]
    · simp [decode_json_list, hb, hparse]
  · intro s x hv hparse hnl
    subst hv
    by_cases hb : pyStrip s = ""
    · simp [decode_json_list, hb]
    · cases x with
      | list l => exact absurd rfl (hnl l)
      | null => simp [decode_json_list, hb, hparse]
      | bool b => simp [decode_json_list, hb, hparse]
      | int n => simp [decode_json_list, hb, hparse]
      | str s' => simp [decode_json_list, hb, hparse]
  · intro l hv
    subst hv
    rfl
  · intro s l hv hb hparse
    subst hv
    simp [decode_json_list, hb, hparse]

theorem C6_witness : decode_json_list noParse (PyVal.int 5) = [] :=
  (C6_decode_safe noParse (PyVal.int 5)).1
    (fun _ h => PyVal.noConfusion h) (fun _ h => PyVal.noConfusion h)

/-- C7: a record whose `player_count` failed numeric coercion (missing or
non-numeric) is excluded from coverage matching: removing it from the record
sequence leaves every coverage row — count and last-played — unchanged, and
the computation is total. -/
theorem C7_invalid_pc_not_counted :
    ∀ (parse : String → Option PyVal) (recommended : List ComboRow)
      (pre post : List PlayRow) (r : PlayRow), r.player_count = none →
      compute_coverage parse recommended (pre ++ r :: post)
        = compute_coverage parse recommended (pre ++ post) := by
  intro parse recommended pre post r hr
  rw [compute_coverage_eq, compute_coverage_eq]
  exact List.map_congr_left (fun c _ => coverageRow_skips_invalid parse pre post hr c)

theorem C7_witness :
    compute_coverage noParse [sampleCombo] ([] ++ invalidPcRec :: [])
      = compute_coverage noParse [sampleCombo] ([] ++ []) :=
  C7_invalid_pc_not_counted noParse [sampleCombo] [] [] invalidPcRec rfl

/-- C8: coverage over an empty record sequence gives every recommended
combination a row with `played_count = 0` and an empty `last_played`
value. -/
theorem C8_zero_record_coverage :
    ∀ (parse : String → Option PyVal) (recommended : List ComboRow)
      (row : CoverageRow), row ∈ compute_coverage parse recommended [] →
      row.played_count = 0 ∧ row.last_played_utc = "" := by
  intro parse recommended row hrow
  rw [compute_coverage_eq, List.mem_map] at hrow
  obtain ⟨c, _, rfl⟩ := hrow
  exact ⟨rfl, rfl⟩

theorem C8_witness :
    (coverageRow noParse [] sampleCombo).played_count = 0 ∧
      (coverageRow noParse [] sampleCombo).last_played_utc = "" :=
  C8_zero_record_coverage noParse [sampleCombo] (coverageRow noParse [] sampleCombo)
    (by decide)

/-- C9: canonicalization is idempotent: applying `canonical_list` to its own
output returns it unchanged, for every element collection. -/
theorem C9_canonical_idem :
    ∀ l : List String, canonical_list (canonical_list l) = canonical_list l :=
  fun l =>
    canonical_list_eq_self (fun _ hx => mem_canonical_list hx)
      (sorted_canonical_list l)

/-- C10: in `compute_observed_combos`, a record with a valid `player_count`
gets `suit_count` equal to the length of its full canonical suit list —
wildcard included — and its density label is classified from that
wildcard-inclusive count; a 2-player record with suits
`{Authority, X, Y}` has `suit_count = 3` (not 2), which classifies as
`"Recommended"` for 2 players. -/
theorem C10_observed_wildcard_inclusive :
    (∀ (parse : String → Option PyVal) (r : PlayRow) (n : Int),
      r.player_count = some n →
      (observed_fields parse r).suit_count
          = (canonical_list_py (decode_json_list parse r.suits_used_json)).length ∧
      (observed_fields parse r).density
          = density_label n ((observed_fields parse r).suit_count : Int)) ∧
    (observed_fields noParse authRec).suit_count = 3 ∧
    (observed_fields noParse authRec).suit_count ≠ 2 ∧
    (observed_fields noParse authRec).density = "Recommended" := by
  refine ⟨?_, by decide, by decide, by decide⟩
  intro parse r n h
  unfold observed_fields
  rw [h]
  exact ⟨rfl, rfl⟩

theorem C10_witness :
    (observed_fields noParse authRec).suit_count
        = (canonical_list_py (decode_json_list noParse authRec.suits_used_json)).length ∧
      (observed_fields noParse authRec).density
        = density_label 2 ((observed_fields noParse authRec).suit_count : Int) :=
  C10_observed_wildcard_inclusive.1 noParse authRec 2 rfl
